import Mathlib

/-!
Verification development for the OAuth/PKCE token-broker subsystem of the
wordpress-reader-mcp repository. The definitions below are a shallow
embedding of the auth router (authorize / callback / token / validate /
current-token / wordpress-token endpoints, the access guard, and the
file-backed token and authorization-code stores), together with a
byte-level SHA-256 and base64url implementation modelling the
`crypto.createHash('sha256').update(v).digest('base64url')` call used for
PKCE challenges.
-/

namespace WPAuth

/-! ## SHA-256 (FIPS 180-4) over byte lists, words as `Nat` mod 2^32 -/

def w32 : Nat := 4294967296

def rotr (n x : Nat) : Nat := ((x >>> n) ||| (x <<< (32 - n))) % w32

def shaK : List Nat :=
  [1116352408, 1899447441, 3049323471, 3921009573, 961987163, 1508970993,
   2453635748, 2870763221, 3624381080, 310598401, 607225278, 1426881987,
   1925078388, 2162078206, 2614888103, 3248222580, 3835390401, 4022224774,
   264347078, 604807628, 770255983, 1249150122, 1555081692, 1996064986,
   2554220882, 2821834349, 2952996808, 3210313671, 3336571891, 3584528711,
   113926993, 338241895, 666307205, 773529912, 1294757372, 1396182291,
   1695183700, 1986661051, 2177026350, 2456956037, 2730485921, 2820302411,
   3259730800, 3345764771, 3516065817, 3600352804, 4094571909, 275423344,
   430227734, 506948616, 659060556, 883997877, 958139571, 1322822218,
   1537002063, 1747873779, 1955562222, 2024104815, 2227730452, 2361852424,
   2428436474, 2756734187, 3204031479, 3329325298]

def shaH0 : List Nat :=
  [1779033703, 3144134277, 1013904242, 2773480762,
   1359893119, 2600822924, 528734635, 1541459225]

def smallSigma0 (x : Nat) : Nat := (rotr 7 x) ^^^ (rotr 18 x) ^^^ (x >>> 3)
def smallSigma1 (x : Nat) : Nat := (rotr 17 x) ^^^ (rotr 19 x) ^^^ (x >>> 10)
def bigSigma0 (x : Nat) : Nat := (rotr 2 x) ^^^ (rotr 13 x) ^^^ (rotr 22 x)
def bigSigma1 (x : Nat) : Nat := (rotr 6 x) ^^^ (rotr 11 x) ^^^ (rotr 25 x)
def chf (x y z : Nat) : Nat := (x &&& y) ^^^ ((x ^^^ 0xffffffff) &&& z)
def maj (x y z : Nat) : Nat := (x &&& y) ^^^ (x &&& z) ^^^ (y &&& z)

/-- Message padding per FIPS 180-4 §5.1.1: a marker byte 0x80, enough zero
bytes, then eight bytes holding the bit length big-endian, so that the total
is block-aligned (a multiple of 64 bytes). -/
def shaPad (msg : List Nat) : List Nat :=
  let padZeros := (56 + 64 - ((msg.length + 1) % 64)) % 64
  let bitLen := msg.length * 8
  msg ++ [0x80] ++ List.replicate padZeros 0 ++
    [bitLen / 2^56 % 256, bitLen / 2^48 % 256, bitLen / 2^40 % 256, bitLen / 2^32 % 256,
     bitLen / 2^24 % 256, bitLen / 2^16 % 256, bitLen / 2^8 % 256, bitLen % 256]

def bytesToWords : List Nat → List Nat
  | b0 :: b1 :: b2 :: b3 :: rest => (((b0 * 256 + b1) * 256 + b2) * 256 + b3) :: bytesToWords rest
  | _ => []

def wordsToBytes : List Nat → List Nat
  | [] => []
  | w :: rest =>
      (w / 16777216 % 256) :: (w / 65536 % 256) :: (w / 256 % 256) :: (w % 256) :: wordsToBytes rest

/-- Extend the 16 message words of a block to the 64-word schedule. -/
def messageSchedule (ws : List Nat) : List Nat :=
  (List.range 48).foldl
    (fun w j =>
      let i := j + 16
      w ++ [(smallSigma1 (w.getD (i - 2) 0) + w.getD (i - 7) 0 +
             smallSigma0 (w.getD (i - 15) 0) + w.getD (i - 16) 0) % w32])
    ws

def compressStep (st : List Nat) (kw : Nat × Nat) : List Nat :=
  match st with
  | [a, b, c, d, e, f, g, h] =>
      let t1 := (h + bigSigma1 e + chf e f g + kw.1 + kw.2) % w32
      let t2 := (bigSigma0 a + maj a b c) % w32
      [(t1 + t2) % w32, a, b, c, (d + t1) % w32, e, f, g]
  | other => other

def compressBlock (h : List Nat) (block : List Nat) : List Nat :=
  let ws := messageSchedule (bytesToWords block)
  let st := (shaK.zip ws).foldl compressStep h
  (h.zip st).map (fun p => (p.1 + p.2) % w32)

/-- Split a byte list into 64-byte blocks (fuel-driven structural recursion). -/
def chunksGo : Nat → List Nat → List (List Nat)
  | 0, _ => []
  | _, [] => []
  | fuel + 1, l => l.take 64 :: chunksGo fuel (l.drop 64)

def chunks64 (l : List Nat) : List (List Nat) := chunksGo l.length l

/-- SHA-256 digest (32 bytes) of a byte message. -/
def sha256 (msg : List Nat) : List Nat :=
  wordsToBytes ((chunks64 (shaPad msg)).foldl compressBlock shaH0)

/-! ## base64url (RFC 4648 §5, unpadded, as produced by node's 'base64url') -/

def b64Alphabet : List Char :=
  "ABCDEFGHIJKLMNOPQRSTUVWXYZabcdefghijklmnopqrstuvwxyz0123456789-_".toList

def b64Char (n : Nat) : Char := b64Alphabet.getD n 'A'

def b64Go : List Nat → List Char
  | b0 :: b1 :: b2 :: rest =>
      b64Char (b0 / 4) :: b64Char (b0 % 4 * 16 + b1 / 16) ::
      b64Char (b1 % 16 * 4 + b2 / 64) :: b64Char (b2 % 64) :: b64Go rest
  | [b0, b1] => [b64Char (b0 / 4), b64Char (b0 % 4 * 16 + b1 / 16), b64Char (b1 % 16 * 4)]
  | [b0] => [b64Char (b0 / 4), b64Char (b0 % 4 * 16)]
  | [] => []

def base64urlEncode (bytes : List Nat) : String := String.mk (b64Go bytes)

/-- UTF-8 encoding of a Unicode scalar value. -/
def utf8Bytes (c : Nat) : List Nat :=
  if c < 128 then [c]
  else if c < 2048 then [192 + c / 64, 128 + c % 64]
  else if c < 65536 then [224 + c / 4096, 128 + c / 64 % 64, 128 + c % 64]
  else [240 + c / 262144, 128 + c / 4096 % 64, 128 + c / 64 % 64, 128 + c % 64]

def strBytes (s : String) : List Nat := (s.data.map (fun ch => utf8Bytes ch.toNat)).flatten

/-- PKCE challenge, as computed at `/callback`-side registration and at the
`/token` redemption check: `crypto.createHash('sha256').update(v).digest('base64url')`. -/
def pkceChallenge (v : String) : String := base64urlEncode (sha256 (strBytes v))

/-- Redemption-side matching at `POST /token`: recompute the challenge from the
presented `code_verifier` and compare with the stored `code_challenge`. -/
def pkceMatches (verifier stored : String) : Bool := pkceChallenge verifier == stored

/-! ## Data model

Records (`Record<string, T>` / `Map<string, T>`) are modelled as association
lists in insertion order with unique keys maintained by `recSet`/`recDel`. -/

structure UserInfo where
  blog_id : Option String
  blog_url : Option String
deriving DecidableEq, Repr

/-- Wire shape of the upstream token-endpoint JSON body. The TypeScript
interface declares all fields as `string`, but at runtime a field absent from
the parsed JSON is `undefined`; that possibility is modelled with `Option`. -/
structure TokenInfo where
  access_token : Option String
  blog_id : Option String
  blog_url : Option String
deriving DecidableEq, Repr

structure MCPToken where
  id : String
  wordpress_token : Option String
  expires_at : Nat
  user_info : UserInfo
deriving DecidableEq, Repr

structure AuthCodeData where
  token_id : String
  code_challenge : String
  expires_at : Nat
deriving DecidableEq, Repr

structure PendingState where
  code_challenge : String
  expires_at : Nat
deriving DecidableEq, Repr

abbrev TokenStore := List (String × MCPToken)
abbrev AuthCodeStore := List (String × AuthCodeData)
abbrev PendingStore := List (String × PendingState)
abbrev RateStore := List (String × List Nat)

/-- First value bound to key `k` (JS object property / `Map.get`). -/
def recGet (k : String) : List (String × α) → Option α
  | [] => none
  | (k', v) :: rest => if k' = k then some v else recGet k rest

/-- JS `obj[k] = v` / `Map.set`: overwrite in place, else append. -/
def recSet (k : String) (v : α) : List (String × α) → List (String × α)
  | [] => [(k, v)]
  | (k', v') :: rest => if k' = k then (k, v) :: rest else (k', v') :: recSet k v rest

/-- JS `delete obj[k]` / `Map.delete`. -/
def recDel (k : String) (l : List (String × α)) : List (String × α) :=
  l.filter (fun p => p.1 ≠ k)

/-! ## File-backed stores (`loadTokens` / `loadAuthCodes` with expiry sweep)

Each helper both returns a value and leaves the file in a definite state;
`loadTokens`/`loadAuthCodes` filter out entries with `expires_at ≤ now` and
write the cleaned collection back, so the file contents after any of these
calls is the filtered collection. -/

def loadTokens (file : TokenStore) (now : Nat) : TokenStore :=
  file.filter (fun p => decide (now < p.2.expires_at))

def storeToken (file : TokenStore) (now : Nat) (token : MCPToken) : TokenStore :=
  recSet token.id token (loadTokens file now)

/-- `getToken`: value read and resulting file contents. -/
def getToken (file : TokenStore) (now : Nat) (id : String) : Option MCPToken × TokenStore :=
  (recGet id (loadTokens file now), loadTokens file now)

def loadAuthCodes (file : AuthCodeStore) (now : Nat) : AuthCodeStore :=
  file.filter (fun p => decide (now < p.2.expires_at))

def storeAuthCode (file : AuthCodeStore) (now : Nat) (code tokenId codeChallenge : String) :
    AuthCodeStore :=
  recSet code ⟨tokenId, codeChallenge, now + 600000⟩ (loadAuthCodes file now)

def getAuthCode (file : AuthCodeStore) (now : Nat) (code : String) :
    Option AuthCodeData × AuthCodeStore :=
  (recGet code (loadAuthCodes file now), loadAuthCodes file now)

def deleteAuthCode (file : AuthCodeStore) (now : Nat) (code : String) : AuthCodeStore :=
  recDel code (loadAuthCodes file now)

/-! ## JWT (jsonwebtoken sign/verify), idealized unforgeable signature -/

structure JwtPayload where
  sub : String
  blog_id : Option String
  exp : Nat
deriving DecidableEq, Repr

/-- A signed credential; `sig` is an idealization of the HMAC: it binds the
exact signing secret and payload, so a credential verifies under `secret` iff
it was produced by `jwtSign secret` on its own payload. -/
structure SignedJwt where
  payload : JwtPayload
  sig : String × JwtPayload
deriving DecidableEq, Repr

def jwtSign (secret : String) (p : JwtPayload) : SignedJwt := ⟨p, (secret, p)⟩

def jwtVerify (secret : String) (now : Nat) (t : SignedJwt) : Option JwtPayload :=
  if t.sig = (secret, t.payload) ∧ now < t.payload.exp then some t.payload else none

/-! ## GET /authorize (Step A) -/

inductive AuthorizeResult where
  /-- 400 `{error: 'PKCE required'}` -/
  | pkceRequired
  /-- 302 redirect to the upstream authorization endpoint, carrying `state` -/
  | redirectToWordPress (state : String)
deriving DecidableEq, Repr

def authorize (pending : PendingStore) (now : Nat)
    (code_challenge code_challenge_method : Option String) (state : String) :
    AuthorizeResult × PendingStore :=
  if code_challenge = none ∨ code_challenge = some "" ∨ code_challenge_method ≠ some "S256" then
    (.pkceRequired, pending)
  else
    (.redirectToWordPress state,
     recSet state ⟨code_challenge.getD "", now + 600000⟩ pending)

/-! ## GET /callback (Step B) -/

/-- Outcome of `fetch` + `.json()` against the upstream token endpoint:
either a parsed JSON body (with the HTTP status, which the handler never
inspects), or an exception (network failure / non-JSON body). -/
inductive UpstreamResult where
  | ok (status : Nat) (body : TokenInfo)
  | thrown
deriving DecidableEq, Repr

inductive CallbackResponse where
  /-- 400 invalid-state HTML error page -/
  | invalidState
  /-- 500 'Authentication failed' -/
  | authFailed
  /-- 200 HTML success page showing the fresh authorization code -/
  | successPage (authCode : String)
  /-- 302 redirect to `mcp://auth/callback?code=...` -/
  | successRedirect (authCode : String)
deriving DecidableEq, Repr

structure CallbackOut where
  response : CallbackResponse
  pending : PendingStore
  tokens : TokenStore
  authCodes : AuthCodeStore
  /-- whether the upstream token-exchange `fetch` was performed -/
  calledUpstream : Bool
deriving DecidableEq, Repr

def callback (pending : PendingStore) (tokens : TokenStore) (authCodes : AuthCodeStore)
    (now : Nat) (state : String) (upstream : UpstreamResult)
    (freshId freshCode : String) (isBrowser : Bool) : CallbackOut :=
  match recGet state pending with
  | none => ⟨.invalidState, pending, tokens, authCodes, false⟩
  | some stateData =>
    match upstream with
    | .thrown => ⟨.authFailed, recDel state pending, tokens, authCodes, true⟩
    | .ok _status body =>
      let mcpToken : MCPToken :=
        { id := freshId, wordpress_token := body.access_token,
          expires_at := now + 3600000,
          user_info := { blog_id := body.blog_id, blog_url := body.blog_url } }
      let tokens' := storeToken tokens now mcpToken
      let authCodes' := storeAuthCode authCodes now freshCode freshId stateData.code_challenge
      if isBrowser then
        match body.access_token with
        | none =>
          -- the success-page template evaluates `wordpress_token.substring(0, 20)`,
          -- which throws on an undefined token; the catch answers 500 — but the
          -- token and code stores were already written above
          ⟨.authFailed, recDel state pending, tokens', authCodes', true⟩
        | some _ => ⟨.successPage freshCode, recDel state pending, tokens', authCodes', true⟩
      else ⟨.successRedirect freshCode, recDel state pending, tokens', authCodes', true⟩

/-! ## POST /token (Step C) -/

inductive TokenResult where
  | unsupportedGrantType
  | invalidGrant
  | issued (accessToken : SignedJwt)
deriving DecidableEq, Repr

structure TokenOut where
  response : TokenResult
  tokens : TokenStore
  authCodes : AuthCodeStore
deriving DecidableEq, Repr

def tokenEndpoint (tokens : TokenStore) (authCodes : AuthCodeStore) (now : Nat)
    (jwtSecret grant_type code code_verifier : String) : TokenOut :=
  if grant_type ≠ "authorization_code" then ⟨.unsupportedGrantType, tokens, authCodes⟩
  else
    match getAuthCode authCodes now code with
    | (none, authCodes1) => ⟨.invalidGrant, tokens, authCodes1⟩
    | (some authCodeData, authCodes1) =>
      if pkceChallenge code_verifier ≠ authCodeData.code_challenge then
        ⟨.invalidGrant, tokens, authCodes1⟩
      else
        match getToken tokens now authCodeData.token_id with
        | (none, tokens1) => ⟨.invalidGrant, tokens1, authCodes1⟩
        | (some mcpToken, tokens1) =>
          ⟨.issued (jwtSign jwtSecret ⟨mcpToken.id, mcpToken.user_info.blog_id, now + 3600000⟩),
           tokens1, deleteAuthCode authCodes1 now code⟩

/-! ## GET /validate -/

inductive TokenWire where
  | malformed
  | wellFormed (t : SignedJwt)
deriving DecidableEq, Repr

inductive AuthHeader where
  | missing
  | notBearer
  | bearer (wire : TokenWire)
deriving DecidableEq, Repr

inductive ValidateResult where
  /-- 401 `{error: 'unauthorized'}` (no `Bearer` header) -/
  | unauthorized
  /-- 401 `{error: 'invalid_token'}` (`jwt.verify` threw) -/
  | invalidToken
  /-- 401 `{error: 'token_expired'}` -/
  | tokenExpired
  /-- 200 `{valid: true, wordpress_token, user_info}` -/
  | valid (wordpress_token : Option String) (user_info : UserInfo)
deriving DecidableEq, Repr

def validateEndpoint (tokens : TokenStore) (now : Nat) (jwtSecret : String)
    (header : AuthHeader) : ValidateResult × TokenStore :=
  match header with
  | .missing => (.unauthorized, tokens)
  | .notBearer => (.unauthorized, tokens)
  | .bearer .malformed => (.invalidToken, tokens)
  | .bearer (.wellFormed t) =>
    match jwtVerify jwtSecret now t with
    | none => (.invalidToken, tokens)
    | some decoded =>
      match getToken tokens now decoded.sub with
      | (none, tokens1) => (.tokenExpired, tokens1)
      | (some mcpToken, tokens1) =>
        if mcpToken.expires_at < now then (.tokenExpired, tokens1)
        else (.valid mcpToken.wordpress_token mcpToken.user_info, tokens1)

/-! ## validateMCPAccess (Access Guard) -/

def isLocalhost (ip : String) : Bool :=
  ip == "127.0.0.1" || ip == "::1" || ip == "::ffff:127.0.0.1" ||
  ip.startsWith "127." || ip == "localhost"

inductive GuardResult where
  /-- 403 'Access denied - localhost only' -/
  | accessDenied
  /-- 401 'Invalid MCP authentication' -/
  | invalidAuth
  /-- 429 'Rate limit exceeded' -/
  | rateLimited
  /-- all checks passed, `next()` called -/
  | allowed
deriving DecidableEq, Repr

/-- Sliding-window filter of the recorded timestamps for `ip`. -/
def recentRequests (rate : RateStore) (ip : String) (now : Nat) : List Nat :=
  ((recGet ("mcp_rate_" ++ ip) rate).getD []).filter (fun t => decide (now - t < 60000))

/-- The guard middleware. `configuredSecret` is `process.env.MCP_SHARED_SECRET`
(`none` when unset); `freshSecret` models the `crypto.randomBytes(32).toString('hex')`
value drawn when the configured secret is falsy. -/
def validateMCPAccess (ip : String) (mcpSecretHeader : Option String)
    (configuredSecret : Option String) (freshSecret : String)
    (rate : RateStore) (now : Nat) : GuardResult × RateStore :=
  if !isLocalhost ip then (.accessDenied, rate)
  else
    let expectedSecret :=
      match configuredSecret with
      | some s => if s = "" then freshSecret else s
      | none => freshSecret
    if mcpSecretHeader = none ∨ mcpSecretHeader = some "" ∨
        mcpSecretHeader ≠ some expectedSecret then
      (.invalidAuth, rate)
    else
      let recent := recentRequests rate ip now
      if 10 ≤ recent.length then (.rateLimited, rate)
      else (.allowed, recSet ("mcp_rate_" ++ ip) (recent ++ [now]) rate)

/-- Iterate the guard `n` times from an empty rate store at a fixed time,
collecting the verdicts (used for the 10-then-11th boundary property). -/
def guardRun (ip : String) (hdr cfg : Option String) (freshSecret : String) (now : Nat) :
    Nat → List GuardResult × RateStore
  | 0 => ([], [])
  | n + 1 =>
    let prev := guardRun ip hdr cfg freshSecret now n
    let step := validateMCPAccess ip hdr cfg freshSecret prev.2 now
    (prev.1 ++ [step.1], step.2)

/-! ## GET /current-token -/

inductive CurrentTokenResult where
  | ok (token : MCPToken)
  /-- 404 'No valid token found' -/
  | notFound
deriving DecidableEq, Repr

def latestStep (now : Nat) (acc : Option MCPToken × Nat) (p : String × MCPToken) :
    Option MCPToken × Nat :=
  if now < p.2.expires_at ∧ acc.2 < p.2.expires_at then (some p.2, p.2.expires_at) else acc

def currentTokenEndpoint (tokens : TokenStore) (now : Nat) :
    CurrentTokenResult × TokenStore :=
  let valid := loadTokens tokens now
  match (valid.foldl (latestStep now) (none, 0)).1 with
  | some t => (.ok t, valid)
  | none => (.notFound, valid)

/-! ## GET /wordpress-token/:auth_code -/

inductive WordpressTokenResult where
  | ok (token : MCPToken)
  /-- 404 'Authorization code not found' -/
  | codeNotFound
  /-- 404 'Token not found' -/
  | tokenNotFound
deriving DecidableEq, Repr

structure WordpressTokenOut where
  response : WordpressTokenResult
  tokens : TokenStore
  authCodes : AuthCodeStore
deriving DecidableEq, Repr

def wordpressTokenEndpoint (tokens : TokenStore) (authCodes : AuthCodeStore)
    (now : Nat) (auth_code : String) : WordpressTokenOut :=
  match getAuthCode authCodes now auth_code with
  | (none, authCodes1) => ⟨.codeNotFound, tokens, authCodes1⟩
  | (some authCodeData, authCodes1) =>
    match getToken tokens now authCodeData.token_id with
    | (none, tokens1) => ⟨.tokenNotFound, tokens1, authCodes1⟩
    | (some mcpToken, tokens1) => ⟨.ok mcpToken, tokens1, authCodes1⟩

/-! ## Store lemmas -/

theorem recGet_recDel_self (k : String) (l : List (String × α)) :
    recGet k (recDel k l) = none := by
  induction l with
  | nil => rfl
  | cons p rest ih =>
    by_cases h : p.1 = k
    · simpa [recDel, List.filter_cons, h] using ih
    · simpa [recDel, List.filter_cons, h, recGet] using ih

theorem recGet_mem {k : String} {l : List (String × α)} {v : α}
    (h : recGet k l = some v) : (k, v) ∈ l := by
  induction l with
  | nil => simp [recGet] at h
  | cons p rest ih =>
    obtain ⟨p1, p2⟩ := p
    by_cases hk : p1 = k
    · simp only [recGet, hk, if_pos] at h
      obtain rfl : p2 = v := by injection h
      subst hk
      exact List.mem_cons_self _ _
    · simp only [recGet, hk, if_neg, not_false_iff] at h
      exact List.mem_cons_of_mem _ (ih h)

theorem recGet_filter_of {k : String} {l : List (String × α)} {v : α}
    {p : String × α → Bool} (h : recGet k l = some v) (hp : p (k, v) = true) :
    recGet k (l.filter p) = some v := by
  induction l with
  | nil => simp [recGet] at h
  | cons q rest ih =>
    obtain ⟨q1, q2⟩ := q
    by_cases hk : q1 = k
    · subst hk
      simp only [recGet, if_pos rfl] at h
      obtain rfl : q2 = v := by injection h
      simp [List.filter_cons, hp, recGet]
    · simp only [recGet, hk, if_neg, not_false_iff] at h
      by_cases hq : p (q1, q2) = true
      · simp [List.filter_cons, hq, recGet, hk, ih h]
      · simp only [List.filter_cons, Bool.not_eq_true] at hq ⊢
        rw [hq]
        exact ih h

theorem recGet_none_filter {k : String} {l : List (String × α)}
    {p : String × α → Bool} (h : recGet k l = none) :
    recGet k (l.filter p) = none := by
  induction l with
  | nil => rfl
  | cons q rest ih =>
    obtain ⟨q1, q2⟩ := q
    by_cases hk : q1 = k
    · simp [recGet, hk] at h
    · simp only [recGet, hk, if_neg, not_false_iff] at h
      by_cases hq : p (q1, q2) = true
      · simp [List.filter_cons, hq, recGet, hk, ih h]
      · simp only [List.filter_cons, Bool.not_eq_true] at hq ⊢
        rw [hq]
        exact ih h

theorem filter_self_idem (p : α → Bool) (l : List α) :
    (l.filter p).filter p = l.filter p := by
  induction l with
  | nil => rfl
  | cons x rest ih =>
    by_cases h : p x = true
    · simp [List.filter_cons, h, ih]
    · simp only [List.filter_cons, Bool.not_eq_true] at h ⊢
      rw [h]
      exact ih

theorem loadTokens_idem (file : TokenStore) (now : Nat) :
    loadTokens (loadTokens file now) now = loadTokens file now :=
  filter_self_idem _ _

theorem loadAuthCodes_idem (file : AuthCodeStore) (now : Nat) :
    loadAuthCodes (loadAuthCodes file now) now = loadAuthCodes file now :=
  filter_self_idem _ _

theorem mem_loadTokens {p : String × MCPToken} {file : TokenStore} {now : Nat} :
    p ∈ loadTokens file now ↔ p ∈ file ∧ now < p.2.expires_at := by
  simp [loadTokens, List.mem_filter]

theorem mem_loadAuthCodes {p : String × AuthCodeData} {file : AuthCodeStore} {now : Nat} :
    p ∈ loadAuthCodes file now ↔ p ∈ file ∧ now < p.2.expires_at := by
  simp [loadAuthCodes, List.mem_filter]

/-! ## Sanity check: the embedded PKCE challenge matches the RFC 7636 appendix B vector -/

theorem pkceChallenge_rfc7636_vector :
    pkceChallenge "dBjftJeZ4CVP-mB92K27uhbUJU1p1r_wW1gFWFOEjXk" =
      "E9Melhoa2OwvFrEMTJguCHaoeK1t8URWbuGJSstw-cM" := by decide

/-! ## Claims -/

/-- C6: the PKCE challenge function computes base64url(sha256(verifier)); for
every verifier `v`, redemption-side matching of `v` against `challenge v`
succeeds; and whenever the digests of `v1` and `v2` differ, matching `v1`
against the challenge stored from `v2` fails. -/
theorem C6_pkce_roundtrip :
    (∀ v : String, pkceChallenge v = base64urlEncode (sha256 (strBytes v)))
    ∧ (∀ v : String, pkceMatches v (pkceChallenge v) = true)
    ∧ (∀ v1 v2 : String, pkceChallenge v1 ≠ pkceChallenge v2 →
        pkceMatches v1 (pkceChallenge v2) = false) := by
  refine ⟨fun v => rfl, fun v => ?_, fun v1 v2 h => ?_⟩
  · simp [pkceMatches]
  · simpa [pkceMatches] using h

/-- Witness for C6 at concrete verifiers: the digests of "v-one" and "v-two"
differ, matching "v-one" against its own challenge succeeds as well. -/
theorem C6_pkce_roundtrip_witness :
    pkceMatches "v-one" (pkceChallenge "v-one") = true
    ∧ pkceMatches "v-one" (pkceChallenge "v-two") = false :=
  ⟨C6_pkce_roundtrip.2.1 "v-one", C6_pkce_roundtrip.2.2 "v-one" "v-two" (by decide)⟩

/-- C8: an authorize request whose `code_challenge` is missing or whose
`code_challenge_method` is anything other than `S256` gets the 400 client
error, registers nothing in the pending-authorization store, and issues no
redirect to the upstream authorization endpoint. -/
theorem C8_authorize_rejects_invalid_pkce (pending : PendingStore) (now : Nat)
    (cc ccm : Option String) (state : String)
    (h : cc = none ∨ ccm ≠ some "S256") :
    authorize pending now cc ccm state = (.pkceRequired, pending) := by
  unfold authorize
  rcases h with h | h
  · rw [if_pos (Or.inl h)]
  · rw [if_pos (Or.inr (Or.inr h))]

/-- Witness for C8: a request with no `code_challenge` (and no method) is
rejected and the pending store stays empty. -/
theorem C8_authorize_rejects_invalid_pkce_witness :
    authorize [] 0 none none "s1" = (.pkceRequired, []) :=
  C8_authorize_rejects_invalid_pkce [] 0 none none "s1" (Or.inl rfl)

/-- C3: with no shared secret configured (`MCP_SHARED_SECRET` unset), every
request to a guarded endpoint is rejected by the Access Guard — 403 for a
non-loopback origin, otherwise 401, since the expected secret is a freshly
drawn random value the caller's header cannot match. -/
theorem C3_guard_fail_closed (ip : String) (hdr : Option String) (freshSecret : String)
    (rate : RateStore) (now : Nat) (h : hdr ≠ some freshSecret) :
    (validateMCPAccess ip hdr none freshSecret rate now).1 = .accessDenied
    ∨ (validateMCPAccess ip hdr none freshSecret rate now).1 = .invalidAuth := by
  by_cases hip : isLocalhost ip = true
  · right
    simp [validateMCPAccess, hip, h]
  · left
    simp only [Bool.not_eq_true] at hip
    simp [validateMCPAccess, hip]

/-- Witness for C3: a loopback caller presenting a guessed header is rejected
when no secret is configured. -/
theorem C3_guard_fail_closed_witness :
    (validateMCPAccess "127.0.0.1" (some "guess") none "a1b2c3" [] 0).1 = .accessDenied
    ∨ (validateMCPAccess "127.0.0.1" (some "guess") none "a1b2c3" [] 0).1 = .invalidAuth :=
  C3_guard_fail_closed "127.0.0.1" (some "guess") "a1b2c3" [] 0 (by decide)

/-- C1 (code behavior at the failing input): the callback handler never checks
the upstream HTTP status or the presence of `access_token`; when the upstream
token endpoint answers 400 with a JSON body carrying no `access_token`, a
SessionToken (with `wordpress_token` undefined) IS persisted — in the MCP
client path the handler even answers with the success redirect; in the browser
path the success-page template's `substring` call on the undefined token makes
the catch answer 500 'Authentication failed', yet the stored SessionToken is
left behind, so the exchange partially applied either way. -/
theorem C1_upstream_failure_still_stores_token :
    callback [("s1", ⟨"chal", 1000⟩)] [] [] 500 "s1" (.ok 400 ⟨none, none, none⟩)
        "id1" "ac1" false
      = ⟨.successRedirect "ac1", [], [("id1", ⟨"id1", none, 3600500, ⟨none, none⟩⟩)],
         [("ac1", ⟨"id1", "chal", 600500⟩)], true⟩
    ∧ callback [("s1", ⟨"chal", 1000⟩)] [] [] 500 "s1" (.ok 400 ⟨none, none, none⟩)
        "id1" "ac1" true
      = ⟨.authFailed, [], [("id1", ⟨"id1", none, 3600500, ⟨none, none⟩⟩)],
         [("ac1", ⟨"id1", "chal", 600500⟩)], true⟩ := by decide

/-- C2 (code behavior at the failing input): the callback handler reads the
pending state with a plain `Map.get` and never consults `expires_at`; a state
that expired at time 5, still present at time 100 because the 60-second sweep
has not run, is accepted — the upstream exchange is performed and the request
succeeds instead of returning the 'invalid state' error. -/
theorem C2_expired_state_not_treated_as_absent :
    (callback [("s1", ⟨"chal", 5⟩)] [] [] 100 "s1"
        (.ok 200 ⟨some "tok123", some "42", some "http://example.com"⟩)
        "id1" "ac1" true).calledUpstream = true
    ∧ (callback [("s1", ⟨"chal", 5⟩)] [] [] 100 "s1"
        (.ok 200 ⟨some "tok123", some "42", some "http://example.com"⟩)
        "id1" "ac1" true).response = .successPage "ac1" := by decide

/-! ## Rate-limit lemmas -/

/-- When the caller is loopback and presents the configured (non-empty) shared
secret, the guard reduces to the rate-limit check. -/
theorem validateMCPAccess_passes_to_rate (ip s freshSecret : String) (rate : RateStore)
    (now : Nat) (hip : isLocalhost ip = true) (hs : s ≠ "") :
    validateMCPAccess ip (some s) (some s) freshSecret rate now =
      if 10 ≤ (recentRequests rate ip now).length then (.rateLimited, rate)
      else (.allowed, recSet ("mcp_rate_" ++ ip) (recentRequests rate ip now ++ [now]) rate) := by
  unfold validateMCPAccess
  simp [hip, hs]

theorem filter_replicate_recent (k now : Nat) :
    (List.replicate k now).filter (fun t => decide (now - t < 60000)) = List.replicate k now := by
  induction k with
  | zero => rfl
  | succ n ih =>
    rw [List.replicate_succ, List.filter_cons_of_pos (by simp [Nat.sub_self]), ih]

/-- Running the guard `k ≤ 10` times from an empty rate store at one instant:
every verdict is `allowed` and the window holds `k` copies of the timestamp. -/
theorem guardRun_le_ten (ip s freshSecret : String) (now : Nat)
    (hip : isLocalhost ip = true) (hs : s ≠ "") :
    ∀ k, k ≤ 10 →
      guardRun ip (some s) (some s) freshSecret now k
        = (List.replicate k .allowed,
           if k = 0 then [] else [("mcp_rate_" ++ ip, List.replicate k now)]) := by
  intro k
  induction k with
  | zero => intro _; rfl
  | succ n ih =>
    intro hk
    have hn : n ≤ 10 := Nat.le_of_succ_le hk
    simp only [guardRun, ih hn]
    rw [validateMCPAccess_passes_to_rate ip s freshSecret _ now hip hs]
    by_cases h0 : n = 0
    · subst h0
      simp [recentRequests, recGet, recSet, List.replicate_succ]
    · rw [if_neg h0]
      have hrec : recentRequests [("mcp_rate_" ++ ip, List.replicate n now)] ip now
          = List.replicate n now := by
        simp [recentRequests, recGet, filter_replicate_recent]
      rw [hrec]
      have hlen : ¬ 10 ≤ (List.replicate n now).length := by
        simp only [List.length_replicate]
        omega
      rw [if_neg hlen]
      have happ : List.replicate n now ++ [now] = List.replicate (n + 1) now :=
        (List.replicate_succ' n now).symm
      simp [recSet, happ, (List.replicate_succ' n GuardResult.allowed).symm]

/-- C5: passing origin and secret checks, a request whose origin already has
≥ 10 recorded timestamps inside the trailing 60-second window is rejected with
429 and not recorded; otherwise it is allowed and its timestamp appended after
the sliding-window filter; consequently, from an empty window, 10 consecutive
requests succeed and the 11th inside the window is rejected. -/
theorem C5_rate_limit_sliding_window (ip s freshSecret : String) (rate : RateStore)
    (now : Nat) (hip : isLocalhost ip = true) (hs : s ≠ "") :
    (10 ≤ (recentRequests rate ip now).length →
       validateMCPAccess ip (some s) (some s) freshSecret rate now = (.rateLimited, rate))
    ∧ ((recentRequests rate ip now).length < 10 →
       validateMCPAccess ip (some s) (some s) freshSecret rate now =
         (.allowed, recSet ("mcp_rate_" ++ ip) (recentRequests rate ip now ++ [now]) rate))
    ∧ (guardRun ip (some s) (some s) freshSecret now 10).1 = List.replicate 10 .allowed
    ∧ (validateMCPAccess ip (some s) (some s) freshSecret
         (guardRun ip (some s) (some s) freshSecret now 10).2 now).1 = .rateLimited := by
  refine ⟨fun h => ?_, fun h => ?_, ?_, ?_⟩
  · rw [validateMCPAccess_passes_to_rate ip s freshSecret rate now hip hs, if_pos h]
  · rw [validateMCPAccess_passes_to_rate ip s freshSecret rate now hip hs,
        if_neg (Nat.not_le.mpr h)]
  · rw [guardRun_le_ten ip s freshSecret now hip hs 10 le_rfl]
  · rw [guardRun_le_ten ip s freshSecret now hip hs 10 le_rfl]
    simp only [if_neg (by omega : ¬ (10 : Nat) = 0)]
    rw [validateMCPAccess_passes_to_rate ip s freshSecret _ now hip hs]
    have hrec : recentRequests [("mcp_rate_" ++ ip, List.replicate 10 now)] ip now
        = List.replicate 10 now := by
      simp [recentRequests, recGet, filter_replicate_recent]
    rw [hrec, if_pos (by simp [List.length_replicate])]

/-- Witness for C5: from an empty store at time 0, ten requests with the
correct secret from 127.0.0.1 are all allowed and the 11th is rejected. -/
theorem C5_rate_limit_sliding_window_witness :
    (guardRun "127.0.0.1" (some "shh") (some "shh") "r0" 0 10).1
        = List.replicate 10 .allowed
    ∧ (validateMCPAccess "127.0.0.1" (some "shh") (some "shh") "r0"
         (guardRun "127.0.0.1" (some "shh") (some "shh") "r0" 0 10).2 0).1 = .rateLimited :=
  ⟨(C5_rate_limit_sliding_window "127.0.0.1" "shh" "r0" [] 0 (by decide) (by decide)).2.2.1,
   (C5_rate_limit_sliding_window "127.0.0.1" "shh" "r0" [] 0 (by decide) (by decide)).2.2.2⟩

/-! ## Latest-valid-token fold lemmas -/

/-- Characterization of the `/current-token` scan: folding `latestStep` keeps,
of the accumulator and the valid entries seen, one with the greatest expiry. -/
theorem latestFold_spec (now : Nat) (l : List (String × MCPToken)) :
    ∀ acc : Option MCPToken × Nat,
      (acc.1 = none → acc.2 = 0) →
      (∀ u, acc.1 = some u → acc.2 = u.expires_at ∧ now < u.expires_at) →
      (∀ u, (l.foldl (latestStep now) acc).1 = some u →
          (acc.1 = some u ∨ u ∈ l.map Prod.snd) ∧ now < u.expires_at
          ∧ (∀ p ∈ l, now < p.2.expires_at → p.2.expires_at ≤ u.expires_at)
          ∧ (∀ w, acc.1 = some w → w.expires_at ≤ u.expires_at))
      ∧ ((l.foldl (latestStep now) acc).1 = none →
          acc.1 = none ∧ ∀ p ∈ l, ¬ now < p.2.expires_at) := by
  induction l with
  | nil =>
    intro acc _h0 hs
    simp only [List.foldl_nil]
    refine ⟨fun u hu => ⟨Or.inl hu, (hs u hu).2, by simp, fun w hw => ?_⟩,
            fun hn => ⟨hn, by simp⟩⟩
    rw [hw] at hu
    injection hu with h
    rw [h]
  | cons p rest ih =>
    intro acc h0 hs
    simp only [List.foldl_cons]
    by_cases hcond : now < p.2.expires_at ∧ acc.2 < p.2.expires_at
    · have ha : latestStep now acc p = (some p.2, p.2.expires_at) := by
        rw [latestStep, if_pos hcond]
      have h0' : (latestStep now acc p).1 = none → (latestStep now acc p).2 = 0 := by
        rw [ha]
        intro h
        exact absurd h (by simp)
      have hs' : ∀ u, (latestStep now acc p).1 = some u →
          (latestStep now acc p).2 = u.expires_at ∧ now < u.expires_at := by
        rw [ha]
        intro u hu
        injection hu with h
        exact ⟨by rw [h], h ▸ hcond.1⟩
      obtain ⟨ihs, ihn⟩ := ih (latestStep now acc p) h0' hs'
      constructor
      · intro u hu
        obtain ⟨hmem, hlt, hrest, hw⟩ := ihs u hu
        have hpu : p.2.expires_at ≤ u.expires_at := hw p.2 (by rw [ha])
        refine ⟨?_, hlt, ?_, ?_⟩
        · rcases hmem with hm | hm
          · rw [ha] at hm
            injection hm with h
            exact Or.inr (by simp [← h])
          · exact Or.inr (by simp [hm])
        · intro q hq hqv
          rcases List.mem_cons.mp hq with h | h
          · rw [h]
            exact hpu
          · exact hrest q h hqv
        · intro w hw'
          have hwe : acc.2 = w.expires_at := (hs w hw').1
          exact le_trans (le_of_lt (hwe ▸ hcond.2)) hpu
      · intro hn
        obtain ⟨hne, _⟩ := ihn hn
        rw [ha] at hne
        exact absurd hne (by simp)
    · have ha : latestStep now acc p = acc := by
        rw [latestStep, if_neg hcond]
      obtain ⟨ihs, ihn⟩ := ih (latestStep now acc p) (by rw [ha]; exact h0)
        (by rw [ha]; exact hs)
      constructor
      · intro u hu
        obtain ⟨hmem, hlt, hrest, hw⟩ := ihs u hu
        rw [ha] at hmem hw
        refine ⟨?_, hlt, ?_, hw⟩
        · rcases hmem with hm | hm
          · exact Or.inl hm
          · exact Or.inr (by simp [hm])
        intro q hq hqv
        rcases List.mem_cons.mp hq with h | h
        · rw [h] at hqv ⊢
          have hae : p.2.expires_at ≤ acc.2 := by
            by_contra hcon
            exact hcond ⟨hqv, Nat.lt_of_not_le hcon⟩
          cases hacc : acc.1 with
          | none =>
            rw [h0 hacc] at hae
            omega
          | some w =>
            have := (hs w hacc).1
            exact le_trans (this ▸ hae) (hw w hacc)
        · exact hrest q h hqv
      · intro hn
        obtain ⟨hne, hrest⟩ := ihn hn
        rw [ha] at hne
        refine ⟨hne, ?_⟩
        intro q hq
        rcases List.mem_cons.mp hq with h | h
        · subst h
          intro hqv
          apply hcond
          rw [h0 hne]
          exact ⟨hqv, by omega⟩
        · exact hrest q h

/-- C9: the `/current-token` lookup returns a stored SessionToken with the
greatest `expires_at` among entries strictly unexpired at the current time,
and returns the 404 'No valid token found' outcome exactly when no such entry
exists. -/
theorem C9_current_token_latest_valid (tokens : TokenStore) (now : Nat) :
    ((currentTokenEndpoint tokens now).1 = .notFound ↔
        ∀ p ∈ tokens, p.2.expires_at ≤ now)
    ∧ (∀ t, (currentTokenEndpoint tokens now).1 = .ok t →
        (∃ p ∈ tokens, p.2 = t) ∧ now < t.expires_at
        ∧ ∀ p ∈ tokens, now < p.2.expires_at → p.2.expires_at ≤ t.expires_at) := by
  obtain ⟨hsome, hnone⟩ :=
    latestFold_spec now (loadTokens tokens now) (none, 0) (fun _ => rfl) (by simp)
  unfold currentTokenEndpoint
  cases hfold : (List.foldl (latestStep now) (none, 0) (loadTokens tokens now)).1 with
  | none =>
    obtain ⟨_, hinv⟩ := hnone hfold
    simp only [hfold]
    constructor
    · constructor
      · intro _ p hp
        by_contra hcon
        exact hinv p (mem_loadTokens.mpr ⟨hp, Nat.lt_of_not_le hcon⟩) (Nat.lt_of_not_le hcon)
      · intro _
        trivial
    · intro t ht
      exact absurd ht (by simp)
  | some u =>
    obtain ⟨hmem, hlt, hmax, _⟩ := hsome u hfold
    simp only [hfold]
    constructor
    · constructor
      · intro h
        exact absurd h (by simp)
      · intro hall
        rcases hmem with hm | hm
        · exact absurd hm (by simp)
        · obtain ⟨q, hq, hqu⟩ := List.mem_map.mp hm
          have := hall q (mem_loadTokens.mp hq).1
          rw [hqu] at this
          omega
    · intro t ht
      have htu : t = u := by
        injection ht with h
        exact h.symm
      subst htu
      rcases hmem with hm | hm
      · exact absurd hm (by simp)
      · obtain ⟨q, hq, hqu⟩ := List.mem_map.mp hm
        refine ⟨⟨q, (mem_loadTokens.mp hq).1, hqu⟩, hlt, ?_⟩
        intro p hp hpv
        exact hmax p (mem_loadTokens.mpr ⟨hp, hpv⟩) hpv

/-- Witness for C9 at a concrete store: with one token expiring at 200 and one
at 300 (now = 100), the endpoint does not answer 'No valid token found', and
the returned token's expiry dominates every valid entry. -/
theorem C9_current_token_latest_valid_witness :
    ¬ ((currentTokenEndpoint
          [("a", ⟨"a", some "wa", 200, ⟨some "1", some "ua"⟩⟩),
           ("b", ⟨"b", some "wb", 300, ⟨some "2", some "ub"⟩⟩)] 100).1
        = CurrentTokenResult.notFound) := by
  intro h
  have := (C9_current_token_latest_valid
      [("a", ⟨"a", some "wa", 200, ⟨some "1", some "ua"⟩⟩),
       ("b", ⟨"b", some "wb", 300, ⟨some "2", some "ub"⟩⟩)] 100).1.mp h
  have hb := this ("b", ⟨"b", some "wb", 300, ⟨some "2", some "ub"⟩⟩) (by simp)
  exact absurd hb (by decide)

/-! ## Redemption (`POST /token`) evaluation lemmas -/

theorem tokenEndpoint_success (tokens : TokenStore) (authCodes : AuthCodeStore) (now : Nat)
    (jwtSecret code v : String) (acd : AuthCodeData) (mcp : MCPToken)
    (h1 : recGet code (loadAuthCodes authCodes now) = some acd)
    (hch : acd.code_challenge = pkceChallenge v)
    (h2 : recGet acd.token_id (loadTokens tokens now) = some mcp) :
    tokenEndpoint tokens authCodes now jwtSecret "authorization_code" code v =
      ⟨.issued (jwtSign jwtSecret ⟨mcp.id, mcp.user_info.blog_id, now + 3600000⟩),
       loadTokens tokens now, recDel code (loadAuthCodes (loadAuthCodes authCodes now) now)⟩ := by
  unfold tokenEndpoint getAuthCode getToken deleteAuthCode
  rw [if_neg (by simp)]
  rw [h1]
  dsimp only
  rw [if_neg (by rw [hch]; simp)]
  rw [h2]

theorem tokenEndpoint_wrong_verifier (tokens : TokenStore) (authCodes : AuthCodeStore)
    (now : Nat) (jwtSecret code v' : String) (acd : AuthCodeData)
    (h1 : recGet code (loadAuthCodes authCodes now) = some acd)
    (hne : pkceChallenge v' ≠ acd.code_challenge) :
    tokenEndpoint tokens authCodes now jwtSecret "authorization_code" code v' =
      ⟨.invalidGrant, tokens, loadAuthCodes authCodes now⟩ := by
  unfold tokenEndpoint getAuthCode
  rw [if_neg (by simp)]
  rw [h1]
  dsimp only
  rw [if_pos hne]

/-- C4: redeeming a stored AuthorizationCode with a verifier whose digest
matches the stored challenge succeeds, issues a bearer credential whose
subject is the bound session id, and deletes the code, so a second redemption
fails with invalid_grant; a redemption with a verifier whose digest differs
fails with invalid_grant, leaves the code in place, and a subsequent
redemption with the correct verifier still succeeds. -/
theorem C4_code_single_use_pkce_binding (tokens : TokenStore) (authCodes : AuthCodeStore)
    (now : Nat) (jwtSecret code v : String) (acd : AuthCodeData) (mcp : MCPToken)
    (hacd : recGet code authCodes = some acd)
    (hexp : now < acd.expires_at)
    (hch : acd.code_challenge = pkceChallenge v)
    (htok : recGet acd.token_id tokens = some mcp)
    (htexp : now < mcp.expires_at)
    (hid : mcp.id = acd.token_id) :
    tokenEndpoint tokens authCodes now jwtSecret "authorization_code" code v =
      ⟨.issued (jwtSign jwtSecret ⟨acd.token_id, mcp.user_info.blog_id, now + 3600000⟩),
       loadTokens tokens now, recDel code (loadAuthCodes authCodes now)⟩
    ∧ (tokenEndpoint (loadTokens tokens now) (recDel code (loadAuthCodes authCodes now)) now
         jwtSecret "authorization_code" code v).response = .invalidGrant
    ∧ (∀ v', pkceChallenge v' ≠ pkceChallenge v →
        tokenEndpoint tokens authCodes now jwtSecret "authorization_code" code v' =
          ⟨.invalidGrant, tokens, loadAuthCodes authCodes now⟩
        ∧ recGet code (loadAuthCodes authCodes now) = some acd
        ∧ (tokenEndpoint tokens (loadAuthCodes authCodes now) now
             jwtSecret "authorization_code" code v).response =
            .issued (jwtSign jwtSecret ⟨acd.token_id, mcp.user_info.blog_id, now + 3600000⟩)) := by
  have h1 : recGet code (loadAuthCodes authCodes now) = some acd :=
    recGet_filter_of hacd (by simp [hexp])
  have h2 : recGet acd.token_id (loadTokens tokens now) = some mcp :=
    recGet_filter_of htok (by simp [htexp])
  refine ⟨?_, ?_, ?_⟩
  · rw [tokenEndpoint_success tokens authCodes now jwtSecret code v acd mcp h1 hch h2,
        loadAuthCodes_idem, hid]
  · have hgone : recGet code (loadAuthCodes (recDel code (loadAuthCodes authCodes now)) now)
        = none :=
      recGet_none_filter (recGet_recDel_self code (loadAuthCodes authCodes now))
    unfold tokenEndpoint getAuthCode
    rw [if_neg (by simp)]
    rw [hgone]
  · intro v' hv'
    have hne : pkceChallenge v' ≠ acd.code_challenge := by rw [hch]; exact hv'
    refine ⟨tokenEndpoint_wrong_verifier tokens authCodes now jwtSecret code v' acd h1 hne,
            h1, ?_⟩
    have h1' : recGet code (loadAuthCodes (loadAuthCodes authCodes now) now) = some acd := by
      rw [loadAuthCodes_idem]
      exact h1
    rw [tokenEndpoint_success tokens (loadAuthCodes authCodes now) now jwtSecret code v acd mcp
          h1' hch h2, hid]

/-- Witness for C4: a concrete store with one bound session; the correct
verifier redeems the code, yielding a credential whose subject is the bound
session id, with the code deleted from the resulting code store. -/
theorem C4_code_single_use_pkce_binding_witness :
    tokenEndpoint [("t1", ⟨"t1", some "wp", 100, ⟨some "42", some "u"⟩⟩)]
        [("c1", ⟨"t1", pkceChallenge "v1", 100⟩)] 50 "sec" "authorization_code" "c1" "v1" =
      ⟨.issued (jwtSign "sec" ⟨"t1", some "42", 50 + 3600000⟩),
       loadTokens [("t1", ⟨"t1", some "wp", 100, ⟨some "42", some "u"⟩⟩)] 50,
       recDel "c1" (loadAuthCodes [("c1", ⟨"t1", pkceChallenge "v1", 100⟩)] 50)⟩ :=
  (C4_code_single_use_pkce_binding
    [("t1", ⟨"t1", some "wp", 100, ⟨some "42", some "u"⟩⟩)]
    [("c1", ⟨"t1", pkceChallenge "v1", 100⟩)] 50 "sec" "c1" "v1"
    ⟨"t1", pkceChallenge "v1", 100⟩ ⟨"t1", some "wp", 100, ⟨some "42", some "u"⟩⟩
    rfl (by decide) rfl rfl (by decide) rfl).1

/-! ## Validate-endpoint lemmas -/

theorem recGet_filter_pred {k : String} {l : List (String × α)} {v : α}
    {p : String × α → Bool} (h : recGet k (l.filter p) = some v) : p (k, v) = true :=
  (List.mem_filter.mp (recGet_mem h)).2

/-- C7: `/validate` reports a credential as valid exactly when the presented
header is a well-formed bearer credential signed with the server secret, not
yet expired, whose referenced SessionToken is present (hence unexpired) in the
store; in that case the reported data is that session's upstream token and
user info. Every other input — missing header, malformed or tampered
credential, wrong secret, expired credential, missing or expired session — is
reported as one of the invalid outcomes, never an exception (the handler is a
total function into `ValidateResult`). -/
theorem C7_validate_classification (tokens : TokenStore) (now : Nat) (jwtSecret : String)
    (header : AuthHeader) :
    ((∃ wt ui, (validateEndpoint tokens now jwtSecret header).1 = .valid wt ui) ↔
       (∃ t mcp, header = .bearer (.wellFormed t)
          ∧ t.sig = (jwtSecret, t.payload) ∧ now < t.payload.exp
          ∧ recGet t.payload.sub (loadTokens tokens now) = some mcp))
    ∧ (∀ t mcp wt ui, header = .bearer (.wellFormed t) →
        recGet t.payload.sub (loadTokens tokens now) = some mcp →
        (validateEndpoint tokens now jwtSecret header).1 = .valid wt ui →
        wt = mcp.wordpress_token ∧ ui = mcp.user_info ∧ now < mcp.expires_at) := by
  cases header with
  | missing =>
    constructor
    · constructor
      · rintro ⟨wt, ui, h⟩
        exact absurd h (by simp [validateEndpoint])
      · rintro ⟨t, mcp, h, -⟩
        exact absurd h (by simp)
    · intro t mcp wt ui h
      exact absurd h (by simp)
  | notBearer =>
    constructor
    · constructor
      · rintro ⟨wt, ui, h⟩
        exact absurd h (by simp [validateEndpoint])
      · rintro ⟨t, mcp, h, -⟩
        exact absurd h (by simp)
    · intro t mcp wt ui h
      exact absurd h (by simp)
  | bearer wire =>
    cases wire with
    | malformed =>
      constructor
      · constructor
        · rintro ⟨wt, ui, h⟩
          exact absurd h (by simp [validateEndpoint])
        · rintro ⟨t, mcp, h, -⟩
          exact absurd h (by simp)
      · intro t mcp wt ui h
        exact absurd h (by simp)
    | wellFormed t =>
      by_cases hv : t.sig = (jwtSecret, t.payload) ∧ now < t.payload.exp
      · have hver : jwtVerify jwtSecret now t = some t.payload := by
          rw [jwtVerify, if_pos hv]
        cases hg : recGet t.payload.sub (loadTokens tokens now) with
        | none =>
          have hres : (validateEndpoint tokens now jwtSecret (.bearer (.wellFormed t))).1
              = .tokenExpired := by
            unfold validateEndpoint getToken
            dsimp only
            rw [hver]
            dsimp only
            rw [hg]
          constructor
          · constructor
            · rintro ⟨wt, ui, h⟩
              rw [hres] at h
              exact absurd h (by simp)
            · rintro ⟨t', mcp, ht', -, -, hg'⟩
              obtain rfl : t' = t := by
                injection ht' with h
                injection h with h
                exact h.symm
              rw [hg] at hg'
              exact absurd hg' (by simp)
          · intro t' mcp wt ui ht' hg' hval
            obtain rfl : t' = t := by
              injection ht' with h
              injection h with h
              exact h.symm
            rw [hg] at hg'
            exact absurd hg' (by simp)
        | some mcp =>
          have hlt : now < mcp.expires_at := by
            have := recGet_filter_pred hg
            simpa using this
          have hres : (validateEndpoint tokens now jwtSecret (.bearer (.wellFormed t))).1
              = .valid mcp.wordpress_token mcp.user_info := by
            unfold validateEndpoint getToken
            dsimp only
            rw [hver]
            dsimp only
            rw [hg]
            dsimp only
            rw [if_neg (by omega)]
          constructor
          · constructor
            · intro _
              exact ⟨t, mcp, rfl, hv.1, hv.2, hg⟩
            · intro _
              exact ⟨mcp.wordpress_token, mcp.user_info, hres⟩
          · intro t' mcp' wt ui ht' hg' hval
            obtain rfl : t' = t := by
              injection ht' with h
              injection h with h
              exact h.symm
            rw [hg] at hg'
            obtain rfl : mcp' = mcp := by
              injection hg' with h
              exact h.symm
            rw [hres] at hval
            injection hval with h1 h2
            exact ⟨h1.symm, h2.symm, hlt⟩
      · have hver : jwtVerify jwtSecret now t = none := by
          rw [jwtVerify, if_neg hv]
        have hres : (validateEndpoint tokens now jwtSecret (.bearer (.wellFormed t))).1
            = .invalidToken := by
          unfold validateEndpoint
          dsimp only
          rw [hver]
        constructor
        · constructor
          · rintro ⟨wt, ui, h⟩
            rw [hres] at h
            exact absurd h (by simp)
          · rintro ⟨t', mcp, ht', hsig, hexp, -⟩
            obtain rfl : t' = t := by
              injection ht' with h
              injection h with h
              exact h.symm
            exact absurd ⟨hsig, hexp⟩ hv
        · intro t' mcp wt ui ht' hg' hval
          rw [hres] at hval
          exact absurd hval (by simp)

/-- Witness for C7: a credential signed with the server secret over an
unexpired session resolves to a valid report. -/
theorem C7_validate_classification_witness :
    ∃ wt ui, (validateEndpoint [("t1", ⟨"t1", some "wp", 100, ⟨some "42", some "u"⟩⟩)] 50 "sec"
        (.bearer (.wellFormed (jwtSign "sec" ⟨"t1", some "42", 100⟩)))).1 = .valid wt ui :=
  (C7_validate_classification [("t1", ⟨"t1", some "wp", 100, ⟨some "42", some "u"⟩⟩)] 50 "sec"
      (.bearer (.wellFormed (jwtSign "sec" ⟨"t1", some "42", 100⟩)))).1.mpr
    ⟨jwtSign "sec" ⟨"t1", some "42", 100⟩, ⟨"t1", some "wp", 100, ⟨some "42", some "u"⟩⟩,
     rfl, rfl, by decide, by decide⟩

/-! ## /wordpress-token/:auth_code lemmas -/

theorem wordpressTokenEndpoint_success (tokens : TokenStore) (authCodes : AuthCodeStore)
    (now : Nat) (auth_code : String) (acd : AuthCodeData) (mcp : MCPToken)
    (h1 : recGet auth_code (loadAuthCodes authCodes now) = some acd)
    (h2 : recGet acd.token_id (loadTokens tokens now) = some mcp) :
    wordpressTokenEndpoint tokens authCodes now auth_code =
      ⟨.ok mcp, loadTokens tokens now, loadAuthCodes authCodes now⟩ := by
  unfold wordpressTokenEndpoint getAuthCode getToken
  rw [h1]
  dsimp only
  rw [h2]

/-- C10 counterexample: the claim's frame clause "adds or removes no entry in
the token store" fails — a successful lookup sweeps expired entries out of the
persisted token store. Here the store holds a valid session (expiry 200) and
an expired one (expiry 50); at time 100 the call succeeds, yet the resulting
token store differs from the original (the expired entry was removed). -/
theorem C10_sweep_mutates_token_store :
    (wordpressTokenEndpoint
        [("t1", ⟨"t1", some "wp", 200, ⟨some "42", some "u"⟩⟩),
         ("t2", ⟨"t2", some "old", 50, ⟨some "43", some "v"⟩⟩)]
        [("c1", ⟨"t1", "ch", 200⟩)] 100 "c1").response
      = .ok ⟨"t1", some "wp", 200, ⟨some "42", some "u"⟩⟩
    ∧ (wordpressTokenEndpoint
        [("t1", ⟨"t1", some "wp", 200, ⟨some "42", some "u"⟩⟩),
         ("t2", ⟨"t2", some "old", 50, ⟨some "43", some "v"⟩⟩)]
        [("c1", ⟨"t1", "ch", 200⟩)] 100 "c1").tokens
      ≠ [("t1", ⟨"t1", some "wp", 200, ⟨some "42", some "u"⟩⟩),
         ("t2", ⟨"t2", some "old", 50, ⟨some "43", some "v"⟩⟩)] := by decide

/-- C10 (amended): `/wordpress-token/:auth_code` is non-consuming — a
successful lookup leaves the (unexpired) code present and still redeemable at
`/token`, never deletes the code it resolves, adds nothing to either store,
and repeating the call yields the identical outcome; the only mutation is the
load-time expiry sweep, which removes entries whose `expires_at` has passed,
so every unexpired entry of both stores is preserved. -/
theorem C10_wordpress_token_nonconsuming (tokens : TokenStore) (authCodes : AuthCodeStore)
    (now : Nat) (auth_code : String) (acd : AuthCodeData) (mcp : MCPToken)
    (hacd : recGet auth_code authCodes = some acd)
    (hexp : now < acd.expires_at)
    (htok : recGet acd.token_id tokens = some mcp)
    (htexp : now < mcp.expires_at) :
    wordpressTokenEndpoint tokens authCodes now auth_code =
      ⟨.ok mcp, loadTokens tokens now, loadAuthCodes authCodes now⟩
    ∧ recGet auth_code (loadAuthCodes authCodes now) = some acd
    ∧ (∀ p ∈ tokens, now < p.2.expires_at → p ∈ loadTokens tokens now)
    ∧ (∀ p ∈ loadTokens tokens now, p ∈ tokens)
    ∧ (∀ p ∈ authCodes, now < p.2.expires_at → p ∈ loadAuthCodes authCodes now)
    ∧ (∀ p ∈ loadAuthCodes authCodes now, p ∈ authCodes)
    ∧ wordpressTokenEndpoint (loadTokens tokens now) (loadAuthCodes authCodes now) now
        auth_code =
      ⟨.ok mcp, loadTokens tokens now, loadAuthCodes authCodes now⟩
    ∧ (∀ v jwtSecret, acd.code_challenge = pkceChallenge v →
        (tokenEndpoint (loadTokens tokens now) (loadAuthCodes authCodes now) now jwtSecret
            "authorization_code" auth_code v).response =
          .issued (jwtSign jwtSecret ⟨mcp.id, mcp.user_info.blog_id, now + 3600000⟩)) := by
  have h1 : recGet auth_code (loadAuthCodes authCodes now) = some acd :=
    recGet_filter_of hacd (by simp [hexp])
  have h2 : recGet acd.token_id (loadTokens tokens now) = some mcp :=
    recGet_filter_of htok (by simp [htexp])
  refine ⟨wordpressTokenEndpoint_success tokens authCodes now auth_code acd mcp h1 h2, h1,
    ?_, ?_, ?_, ?_, ?_, ?_⟩
  · intro p hp hv
    exact mem_loadTokens.mpr ⟨hp, hv⟩
  · intro p hp
    exact (mem_loadTokens.mp hp).1
  · intro p hp hv
    exact mem_loadAuthCodes.mpr ⟨hp, hv⟩
  · intro p hp
    exact (mem_loadAuthCodes.mp hp).1
  · have h1' : recGet auth_code (loadAuthCodes (loadAuthCodes authCodes now) now) = some acd := by
      rw [loadAuthCodes_idem]
      exact h1
    have h2' : recGet acd.token_id (loadTokens (loadTokens tokens now) now) = some mcp := by
      rw [loadTokens_idem]
      exact h2
    rw [wordpressTokenEndpoint_success (loadTokens tokens now) (loadAuthCodes authCodes now)
          now auth_code acd mcp h1' h2', loadTokens_idem, loadAuthCodes_idem]
  · intro v jwtSecret hch
    have h1' : recGet auth_code (loadAuthCodes (loadAuthCodes authCodes now) now) = some acd := by
      rw [loadAuthCodes_idem]
      exact h1
    have h2' : recGet acd.token_id (loadTokens (loadTokens tokens now) now) = some mcp := by
      rw [loadTokens_idem]
      exact h2
    rw [tokenEndpoint_success (loadTokens tokens now) (loadAuthCodes authCodes now) now
          jwtSecret auth_code v acd mcp h1' hch h2']

/-- Witness for C10 at a concrete store: the lookup succeeds and both stores
end in their swept states with the code still present. -/
theorem C10_wordpress_token_nonconsuming_witness :
    wordpressTokenEndpoint [("t1", ⟨"t1", some "wp", 200, ⟨some "42", some "u"⟩⟩)]
        [("c1", ⟨"t1", "ch", 200⟩)] 100 "c1" =
      ⟨.ok ⟨"t1", some "wp", 200, ⟨some "42", some "u"⟩⟩,
       loadTokens [("t1", ⟨"t1", some "wp", 200, ⟨some "42", some "u"⟩⟩)] 100,
       loadAuthCodes [("c1", ⟨"t1", "ch", 200⟩)] 100⟩ :=
  (C10_wordpress_token_nonconsuming [("t1", ⟨"t1", some "wp", 200, ⟨some "42", some "u"⟩⟩)]
    [("c1", ⟨"t1", "ch", 200⟩)] 100 "c1" ⟨"t1", "ch", 200⟩
    ⟨"t1", some "wp", 200, ⟨some "42", some "u"⟩⟩
    rfl (by decide) rfl (by decide)).1

end WPAuth
